import Mathlib

/-!
Verification model of the ledger-service repository (Go + PostgreSQL).

The handlers in `handlers/` (CreateCustomer, CreateTransaction, GetBalance,
GetTransactions) are embedded as pure Lean functions over an explicit
`LedgerState`.  Monetary amounts (Go `float64`, SQL `DECIMAL(15,2)`) are
modelled exactly, as integers in minor units — the representation the
design notes themselves recommend; UUIDs are modelled as abstract `Nat`
identifiers supplied by the caller (the code draws them from `uuid.New()`);
the `created_at` timestamp assigned by the store is modelled as a `Nat`
parameter.  A database transaction that ends in rollback leaves the state
unchanged, so fallible handlers return `Except`: an `error` result means
the pre-state is the post-state.
-/

namespace Ledger

/-- Kind of error surfaced by a handler, following the repository's
error taxonomy. -/
inductive LedgerError where
  | invalidInput
  | notFound
  | insufficientBalance
  | internalError
deriving Repr, DecidableEq

/-- A customer row: `name VARCHAR(255) NOT NULL`,
`balance DECIMAL(15,2) NOT NULL`. -/
structure CustomerRec where
  name : String
  balance : ℤ
deriving Repr, DecidableEq

/-- A transaction row: id, owning customer, type (`credit` or `debit`,
kept as a string exactly as the code stores it), amount, and the
store-assigned creation timestamp. -/
structure Txn where
  id : Nat
  customerId : Nat
  type : String
  amount : ℤ
  createdAt : Nat
deriving Repr, DecidableEq

/-- The durable store: the `customers` table as an association list keyed
by customer id, and the `transactions` table as a list in insertion
(commit) order. -/
structure LedgerState where
  customers : List (Nat × CustomerRec)
  journal : List Txn
deriving Repr, DecidableEq

instance {ε α : Type} [DecidableEq ε] [DecidableEq α] : DecidableEq (Except ε α) :=
  fun a b =>
    match a, b with
    | .ok x, .ok y => decidable_of_iff (x = y) (by simp)
    | .error x, .error y => decidable_of_iff (x = y) (by simp)
    | .ok _, .error _ => isFalse (by simp)
    | .error _, .ok _ => isFalse (by simp)

/-- The empty database. -/
def initState : LedgerState := ⟨[], []⟩

/-- `SELECT ... FROM customers WHERE id = $1` — first row with the key. -/
def lookupCustomer (s : LedgerState) (cid : Nat) : Option CustomerRec :=
  (s.customers.find? (fun p => p.1 == cid)).map Prod.snd

/-- Body of a create-customer request: `name`, `initial_balance`, and the
separate `balance` field, all present on the `Customer` struct the
handler binds. -/
structure CreateCustomerReq where
  name : String
  initialBalance : ℤ
  balance : ℤ
deriving Repr, DecidableEq

/-- `CreateCustomer`: gin binding requires a non-empty `name`; the handler
then takes `initial_balance` unless it equals `0`, in which case it falls
back to the `balance` field; rejects a negative result; and inserts the
row under a fresh id (a duplicate primary key would make the INSERT fail,
surfaced as an internal error with nothing written). -/
def createCustomer (s : LedgerState) (req : CreateCustomerReq) (newId : Nat) :
    Except LedgerError (LedgerState × CustomerRec) :=
  if req.name = "" then .error .invalidInput
  else
    let bal := if req.initialBalance = 0 then req.balance else req.initialBalance
    if bal < 0 then .error .invalidInput
    else if (s.customers.find? (fun p => p.1 == newId)).isSome then .error .internalError
    else
      let c : CustomerRec := ⟨req.name, bal⟩
      .ok ({ s with customers := s.customers ++ [(newId, c)] }, c)

/-- Body of a create-transaction request (`customer_id`, `type`,
`amount`). -/
structure CreateTxnReq where
  customerId : Nat
  type : String
  amount : ℤ
deriving Repr, DecidableEq

/-- `CreateTransaction`: gin binding requires `type ∈ {credit, debit}` and
`amount > 0` before any store access; the handler then reads the target
balance under a row lock (`NotFound` if the customer is missing), rejects
a debit exceeding the current balance with everything rolled back, and
otherwise commits the balance update together with the new journal row,
returning the new balance. -/
def createTransaction (s : LedgerState) (req : CreateTxnReq) (newId : Nat) (now : Nat) :
    Except LedgerError (LedgerState × ℤ) :=
  if ¬ (req.type = "credit" ∨ req.type = "debit") then .error .invalidInput
  else if ¬ (0 < req.amount) then .error .invalidInput
  else
    match lookupCustomer s req.customerId with
    | none => .error .notFound
    | some c =>
      if req.type = "debit" ∧ c.balance < req.amount then .error .insufficientBalance
      else
        let newBalance := if req.type = "debit" then c.balance - req.amount
                          else c.balance + req.amount
        let t : Txn := ⟨newId, req.customerId, req.type, req.amount, now⟩
        .ok ({ customers := s.customers.map
                 (fun p => if p.1 == req.customerId
                           then (p.1, { p.2 with balance := newBalance }) else p),
               journal := s.journal ++ [t] }, newBalance)

/-- Post-state of a fallible handler call: an error means the enclosing
database transaction was rolled back (or never started), so the store is
exactly the pre-state. -/
def postState (s : LedgerState) (r : Except LedgerError (LedgerState × ℤ)) : LedgerState :=
  match r with
  | .ok (s2, _) => s2
  | .error _ => s

/-- Post-state of a create-customer call, same rollback convention. -/
def postStateC (s : LedgerState) (r : Except LedgerError (LedgerState × CustomerRec)) :
    LedgerState :=
  match r with
  | .ok (s2, _) => s2
  | .error _ => s

/-- `isValidCurrency` from the handlers: USD, EUR or GBP. -/
def isValidCurrency (cur : String) : Bool :=
  cur = "USD" || cur = "EUR" || cur = "GBP"

/-- `GetBalance`: validates the display currency (default `USD`), reads the
stored balance (`NotFound` when the customer is missing), then pipes the
stored value through the external exchange-rate collaborator, which is
passed in as a function from currency and amount to a result. -/
def getBalance (s : LedgerState) (cid : Nat) (currency : String)
    (convert : String → ℤ → Except LedgerError ℤ) : Except LedgerError ℤ :=
  if ¬ isValidCurrency currency then .error .invalidInput
  else
    match lookupCustomer s cid with
    | none => .error .notFound
    | some c => convert currency c.balance

/-- Rows of the transactions table belonging to one customer, in insertion
order — the relation the `GetTransactions` query ranges over. -/
def journalOf (s : LedgerState) (cid : Nat) : List Txn :=
  s.journal.filter (fun t => t.customerId == cid)

/-- What `ORDER BY created_at DESC` (with no secondary sort key)
guarantees about the row order the query yields: some permutation of the
customer's rows that is non-increasing in `created_at`.  Which
permutation is up to the database. -/
def QuerySnapshot (s : LedgerState) (cid : Nat) (l : List Txn) : Prop :=
  l.Perm (journalOf s cid) ∧ l.Pairwise (fun a b => b.createdAt ≤ a.createdAt)

instance (s : LedgerState) (cid : Nat) (l : List Txn) :
    Decidable (QuerySnapshot s cid l) := by
  unfold QuerySnapshot; infer_instance

/-- Result of a `GetTransactions` call: the page of rows plus the
pagination metadata the handler writes into response headers. -/
structure PageResult where
  items : List Txn
  totalCount : Nat
  page : Int
  pageSize : Int
  totalPages : Nat
deriving Repr, DecidableEq

/-- `GetTransactions`: rejects `page < 1` or `pageSize < 1` before any
store access, then checks the customer exists, counts the customer's
rows, computes `offset = (page-1)*pageSize`, and returns the window
`LIMIT pageSize OFFSET offset` of the ordered snapshot `snapshot`
(a parameter, since the tie order within equal timestamps is chosen by
the database), with `totalPages = (totalCount + pageSize - 1) / pageSize`.
The offset and total-pages arithmetic is idealized here as exact integer
arithmetic; `getTransactionsGo` below performs it in wrapping 64-bit `int`
precision as the Go source actually does, and the two agree whenever those
products stay below `2^63`. -/
def getTransactions (s : LedgerState) (cid : Nat) (page pageSize : Int)
    (snapshot : List Txn) : Except LedgerError PageResult :=
  if page < 1 then .error .invalidInput
  else if pageSize < 1 then .error .invalidInput
  else if (s.customers.find? (fun p => p.1 == cid)).isNone then .error .notFound
  else
    let totalCount := (journalOf s cid).length
    let offset := ((page - 1) * pageSize).toNat
    let ps := pageSize.toNat
    .ok { items := (snapshot.drop offset).take ps
        , totalCount := totalCount
        , page := page
        , pageSize := pageSize
        , totalPages := (totalCount + ps - 1) / ps }

/-- Two's-complement wrap-around of signed 64-bit machine-integer
arithmetic: Go `int` reduces every result modulo `2^64` into
`[-2^63, 2^63)`. -/
def wrap64 (n : ℤ) : ℤ := (n + 2 ^ 63) % 2 ^ 64 - 2 ^ 63

/-- Result of a machine-precision `GetTransactions` call; `totalPages` is a
Go `int`, which can wrap below zero. -/
structure PageResultGo where
  items : List Txn
  totalCount : Nat
  page : Int
  pageSize : Int
  totalPages : Int
deriving Repr, DecidableEq

/-- `GetTransactions` with `offset := (page-1) * pageSize` and
`totalPages := (totalCount + pageSize - 1) / pageSize` computed exactly as
the Go source computes them: in 64-bit `int` arithmetic, which wraps.  A
wrapped-negative OFFSET is rejected by PostgreSQL, which the handler
surfaces as an internal error; a wrapped non-negative OFFSET addresses
whatever window the wrapped value names. -/
def getTransactionsGo (s : LedgerState) (cid : Nat) (page pageSize : Int)
    (snapshot : List Txn) : Except LedgerError PageResultGo :=
  if page < 1 then .error .invalidInput
  else if pageSize < 1 then .error .invalidInput
  else if (s.customers.find? (fun p => p.1 == cid)).isNone then .error .notFound
  else
    let totalCount := (journalOf s cid).length
    let offset := wrap64 ((page - 1) * pageSize)
    if offset < 0 then .error .internalError
    else
      .ok { items := (snapshot.drop offset.toNat).take pageSize.toNat
          , totalCount := totalCount
          , page := page
          , pageSize := pageSize
          , totalPages := Int.tdiv (wrap64 ((totalCount : ℤ) + pageSize - 1)) pageSize }

/-- A single operation against the service, with the identifier and
timestamp the environment supplies. -/
inductive Op where
  | create (req : CreateCustomerReq) (newId : Nat)
  | apply (req : CreateTxnReq) (newId : Nat) (now : Nat)
deriving Repr, DecidableEq

/-- One step of the service: run the handler, keep the committed state on
success and the rolled-back (unchanged) state on failure. -/
def stepOp (s : LedgerState) (op : Op) : LedgerState :=
  match op with
  | .create req newId => postStateC s (createCustomer s req newId)
  | .apply req newId now => postState s (createTransaction s req newId now)

/-- The state after a sequence of operations starting from the empty
database. -/
def runOps (ops : List Op) : LedgerState :=
  ops.foldl stepOp initState

/-- Every stored balance is non-negative. -/
def NonNegBalances (s : LedgerState) : Prop :=
  ∀ p ∈ s.customers, 0 ≤ p.2.balance

/-- Items carried by a ListTransactions result; an error carries none. -/
def pageItems (r : Except LedgerError PageResult) : List Txn :=
  match r with
  | .ok pr => pr.items
  | .error _ => []

/-- The spec's claimed tie-break: within the returned sequence, any two rows
with equal creation timestamps appear in the order they were inserted into
the journal. -/
def TiesRespectInsertion (base l : List Txn) : Prop :=
  ∀ i j : Fin l.length, i < j → (l.get i).createdAt = (l.get j).createdAt →
    ∃ bi bj : Fin base.length, bi < bj ∧ base.get bi = l.get i ∧ base.get bj = l.get j

instance (base l : List Txn) : Decidable (TiesRespectInsertion base l) := by
  unfold TiesRespectInsertion; infer_instance

def tieTxnA : Txn := ⟨1, 1, "credit", 5, 3⟩

def tieTxnB : Txn := ⟨2, 1, "credit", 7, 3⟩

def tieState : LedgerState := ⟨[(1, ⟨"John Doe", 12⟩)], [tieTxnA, tieTxnB]⟩

def txnA : Txn := ⟨1, 1, "credit", 10, 2⟩

def txnB : Txn := ⟨2, 1, "credit", 20, 5⟩

def txnC : Txn := ⟨3, 1, "credit", 30, 9⟩

def sampleState : LedgerState := ⟨[(1, ⟨"John Doe", 60⟩)], [txnA, txnB, txnC]⟩

end Ledger
namespace Ledger

theorem find?_balance_update (l : List (Nat × CustomerRec)) (cid : Nat)
    (f : CustomerRec → CustomerRec) :
    (l.map (fun p => if p.1 == cid then (p.1, f p.2) else p)).find? (fun p => p.1 == cid)
      = (l.find? (fun p => p.1 == cid)).map (fun p => (p.1, f p.2)) := by
  induction l with
  | nil => rfl
  | cons h t ih =>
    obtain ⟨k, v⟩ := h
    by_cases hc : k = cid
    · subst hc
      simp [List.find?_cons]
    · have hb : (k == cid) = false := beq_eq_false_iff_ne.mpr hc
      simp [List.find?_cons, hb, hc, -List.find?_map]
      simpa using ih

theorem lookup_some_iff (s : LedgerState) (cid : Nat) (c : CustomerRec) :
    lookupCustomer s cid = some c ↔
      ∃ k, s.customers.find? (fun p => p.1 == cid) = some (k, c) := by
  unfold lookupCustomer
  cases hf : s.customers.find? (fun p => p.1 == cid) with
  | none => simp
  | some p => simp [Prod.ext_iff]


theorem apply_credit_spec (s : LedgerState) (cid : Nat) (c : CustomerRec)
    (a : ℤ) (newId now : Nat) (hc : lookupCustomer s cid = some c) (ha : 0 < a) :
    createTransaction s ⟨cid, "credit", a⟩ newId now =
      .ok ({ customers := s.customers.map
               (fun p => if p.1 == cid then (p.1, { p.2 with balance := c.balance + a }) else p),
             journal := s.journal ++ [⟨newId, cid, "credit", a, now⟩] }, c.balance + a) := by
  have hne : ¬ ("credit" : String) = "debit" := by decide
  unfold createTransaction
  simp [hc, hne, ha]

theorem apply_debit_spec (s : LedgerState) (cid : Nat) (c : CustomerRec)
    (a : ℤ) (newId now : Nat) (hc : lookupCustomer s cid = some c) (ha : 0 < a)
    (hle : a ≤ c.balance) :
    createTransaction s ⟨cid, "debit", a⟩ newId now =
      .ok ({ customers := s.customers.map
               (fun p => if p.1 == cid then (p.1, { p.2 with balance := c.balance - a }) else p),
             journal := s.journal ++ [⟨newId, cid, "debit", a, now⟩] }, c.balance - a) := by
  unfold createTransaction
  simp [hc, ha, not_lt.mpr hle]


theorem lookup_after_update (s : LedgerState) (cid : Nat) (c : CustomerRec)
    (nb : ℤ) (j : List Txn) (hc : lookupCustomer s cid = some c) :
    lookupCustomer
      ⟨s.customers.map (fun p => if p.1 == cid then (p.1, { p.2 with balance := nb }) else p), j⟩
      cid = some ⟨c.name, nb⟩ := by
  obtain ⟨k, hk⟩ := (lookup_some_iff s cid c).mp hc
  unfold lookupCustomer
  rw [show (⟨s.customers.map
        (fun p => if p.1 == cid then (p.1, { p.2 with balance := nb }) else p), j⟩ :
        LedgerState).customers = s.customers.map
        (fun p => if p.1 == cid then (p.1, { p.2 with balance := nb }) else p) from rfl,
      find?_balance_update s.customers cid (fun v => { v with balance := nb }), hk]
  rfl

/-- C1: a valid credit adds the amount to the balance and appends exactly one
credit row; a valid covered debit subtracts it and appends exactly one debit
row; both return the new balance. -/
theorem apply_success_balance_and_journal (s : LedgerState) (cid : Nat)
    (c : CustomerRec) (a : ℤ) (newId now : Nat)
    (hc : lookupCustomer s cid = some c) (ha : 0 < a) :
    (∃ s2, createTransaction s ⟨cid, "credit", a⟩ newId now = .ok (s2, c.balance + a) ∧
       s2.journal = s.journal ++ [⟨newId, cid, "credit", a, now⟩] ∧
       lookupCustomer s2 cid = some ⟨c.name, c.balance + a⟩) ∧
    (a ≤ c.balance →
      ∃ s2, createTransaction s ⟨cid, "debit", a⟩ newId now = .ok (s2, c.balance - a) ∧
        s2.journal = s.journal ++ [⟨newId, cid, "debit", a, now⟩] ∧
        lookupCustomer s2 cid = some ⟨c.name, c.balance - a⟩) := by
  constructor
  · exact ⟨_, apply_credit_spec s cid c a newId now hc ha, rfl,
      lookup_after_update s cid c (c.balance + a) _ hc⟩
  · intro hle
    exact ⟨_, apply_debit_spec s cid c a newId now hc ha hle, rfl,
      lookup_after_update s cid c (c.balance - a) _ hc⟩

/-- C1 witness at a concrete state: customer 1 holds 1000; credit 200 yields
1200 with one credit row; debit 200 yields 800 with one debit row. -/
theorem apply_success_balance_and_journal_witness :
    (∃ s2, createTransaction ⟨[(1, ⟨"John Doe", 1000⟩)], []⟩ ⟨1, "credit", 200⟩ 7 3 =
        .ok (s2, 1000 + 200) ∧
      s2.journal = [] ++ [⟨7, 1, "credit", 200, 3⟩] ∧
      lookupCustomer s2 1 = some ⟨"John Doe", 1000 + 200⟩) ∧
    ((200 : ℤ) ≤ 1000 →
      ∃ s2, createTransaction ⟨[(1, ⟨"John Doe", 1000⟩)], []⟩ ⟨1, "debit", 200⟩ 7 3 =
        .ok (s2, 1000 - 200) ∧
      s2.journal = [] ++ [⟨7, 1, "debit", 200, 3⟩] ∧
      lookupCustomer s2 1 = some ⟨"John Doe", 1000 - 200⟩) :=
  apply_success_balance_and_journal ⟨[(1, ⟨"John Doe", 1000⟩)], []⟩ 1 ⟨"John Doe", 1000⟩
    200 7 3 (by decide) (by decide)


/-- C2: a debit exceeding the current balance fails with InsufficientBalance
and leaves the store exactly as before the call. -/
theorem apply_debit_insufficient_rollback (s : LedgerState) (cid : Nat)
    (c : CustomerRec) (a : ℤ) (newId now : Nat)
    (hc : lookupCustomer s cid = some c) (hb : 0 ≤ c.balance) (hgt : c.balance < a) :
    createTransaction s ⟨cid, "debit", a⟩ newId now = .error .insufficientBalance ∧
    postState s (createTransaction s ⟨cid, "debit", a⟩ newId now) = s := by
  have ha : 0 < a := lt_of_le_of_lt hb hgt
  have h1 : createTransaction s ⟨cid, "debit", a⟩ newId now =
      .error .insufficientBalance := by
    unfold createTransaction
    simp [hc, ha, hgt]
  exact ⟨h1, by rw [h1]; rfl⟩

/-- C2 witness: balance 1200, debit 1300 fails and the state is untouched. -/
theorem apply_debit_insufficient_rollback_witness :
    createTransaction ⟨[(1, ⟨"John Doe", 1200⟩)], []⟩ ⟨1, "debit", 1300⟩ 7 3 =
      .error .insufficientBalance ∧
    postState ⟨[(1, ⟨"John Doe", 1200⟩)], []⟩
      (createTransaction ⟨[(1, ⟨"John Doe", 1200⟩)], []⟩ ⟨1, "debit", 1300⟩ 7 3) =
      ⟨[(1, ⟨"John Doe", 1200⟩)], []⟩ :=
  apply_debit_insufficient_rollback ⟨[(1, ⟨"John Doe", 1200⟩)], []⟩ 1 ⟨"John Doe", 1200⟩
    1300 7 3 (by decide) (by decide) (by decide)

theorem createCustomer_nonneg (s : LedgerState) (req : CreateCustomerReq) (newId : Nat)
    (h : NonNegBalances s) :
    NonNegBalances (postStateC s (createCustomer s req newId)) := by
  obtain ⟨nm, ib, bf⟩ := req
  by_cases h1 : nm = ""
  · have e : createCustomer s ⟨nm, ib, bf⟩ newId = .error .invalidInput := by
      simp [createCustomer, h1]
    rw [e]; exact h
  by_cases h2 : (if ib = 0 then bf else ib) < 0
  · have e : createCustomer s ⟨nm, ib, bf⟩ newId = .error .invalidInput := by
      simp [createCustomer, h1, h2]
    rw [e]; exact h
  by_cases h3 : (s.customers.find? (fun p => p.1 == newId)).isSome
  · have e : createCustomer s ⟨nm, ib, bf⟩ newId = .error .internalError := by
      simp [createCustomer, h1, h2, h3]
    rw [e]; exact h
  · have e : createCustomer s ⟨nm, ib, bf⟩ newId =
        .ok (⟨s.customers ++ [(newId, ⟨nm, if ib = 0 then bf else ib⟩)], s.journal⟩,
             ⟨nm, if ib = 0 then bf else ib⟩) := by
      simp [createCustomer, h1, h2, h3]
    rw [e]
    intro p hp
    rcases List.mem_append.mp hp with hL | hR
    · exact h p hL
    · have hpe : p = (newId, ⟨nm, if ib = 0 then bf else ib⟩) := by simpa using hR
      rw [hpe]
      exact not_lt.mp h2

theorem createTransaction_nonneg (s : LedgerState) (req : CreateTxnReq) (newId now : Nat)
    (h : NonNegBalances s) :
    NonNegBalances (postState s (createTransaction s req newId now)) := by
  obtain ⟨cid, ty, a⟩ := req
  by_cases h1 : ¬(ty = "credit" ∨ ty = "debit")
  · have e : createTransaction s ⟨cid, ty, a⟩ newId now = .error .invalidInput := by
      simp [createTransaction, h1]
    rw [e]; exact h
  rcases not_not.mp h1 with hcr | hdb
  · subst hcr
    by_cases h2 : 0 < a
    · cases hl : lookupCustomer s cid with
      | none =>
        have e : createTransaction s ⟨cid, "credit", a⟩ newId now = .error .notFound := by
          simp [createTransaction, h2, hl]
        rw [e]; exact h
      | some c =>
        have hcb : 0 ≤ c.balance := by
          obtain ⟨k, hk⟩ := (lookup_some_iff s cid c).mp hl
          exact h _ (List.mem_of_find?_eq_some hk)
        rw [apply_credit_spec s cid c a newId now hl h2]
        intro p hp
        rcases List.mem_map.mp hp with ⟨q, hq, rfl⟩
        by_cases hqc : q.1 == cid
        · simp only [hqc, if_pos]
          exact add_nonneg hcb h2.le
        · simp only [hqc, if_neg, Bool.false_eq_true, not_false_iff]
          exact h q hq
    · have e : createTransaction s ⟨cid, "credit", a⟩ newId now = .error .invalidInput := by
        simp [createTransaction, h2]
      rw [e]; exact h
  · subst hdb
    by_cases h2 : 0 < a
    · cases hl : lookupCustomer s cid with
      | none =>
        have e : createTransaction s ⟨cid, "debit", a⟩ newId now = .error .notFound := by
          simp [createTransaction, h2, hl]
        rw [e]; exact h
      | some c =>
        by_cases hins : c.balance < a
        · have e : createTransaction s ⟨cid, "debit", a⟩ newId now =
              .error .insufficientBalance := by
            simp [createTransaction, h2, hl, hins]
          rw [e]; exact h
        · rw [apply_debit_spec s cid c a newId now hl h2 (not_lt.mp hins)]
          intro p hp
          rcases List.mem_map.mp hp with ⟨q, hq, rfl⟩
          by_cases hqc : q.1 == cid
          · simp only [hqc, if_pos]
            exact sub_nonneg.mpr (not_lt.mp hins)
          · simp only [hqc, if_neg, Bool.false_eq_true, not_false_iff]
            exact h q hq
    · have e : createTransaction s ⟨cid, "debit", a⟩ newId now = .error .invalidInput := by
        simp [createTransaction, h2]
      rw [e]; exact h


theorem stepOp_nonneg (s : LedgerState) (op : Op) (h : NonNegBalances s) :
    NonNegBalances (stepOp s op) := by
  cases op with
  | create req newId => exact createCustomer_nonneg s req newId h
  | apply req newId now => exact createTransaction_nonneg s req newId now h

/-- C3: in every state reachable by CreateAccount and Apply operations every
stored balance is non-negative; moreover a debit that would drive a balance
negative is refused with InsufficientBalance, and an account creation with a
negative effective balance is refused with InvalidInput — the admission
checks, not any after-the-fact correction. -/
theorem nonneg_invariant_and_admission :
    (∀ ops : List Op, NonNegBalances (runOps ops)) ∧
    (∀ (s : LedgerState) (cid : Nat) (c : CustomerRec) (a : ℤ) (newId now : Nat),
      lookupCustomer s cid = some c → 0 ≤ c.balance → c.balance < a →
      createTransaction s ⟨cid, "debit", a⟩ newId now = .error .insufficientBalance) ∧
    (∀ (s : LedgerState) (req : CreateCustomerReq) (newId : Nat),
      (if req.initialBalance = 0 then req.balance else req.initialBalance) < 0 →
      createCustomer s req newId = .error .invalidInput) := by
  refine ⟨?_, ?_, ?_⟩
  · intro ops
    have key : ∀ (l : List Op) (s : LedgerState),
        NonNegBalances s → NonNegBalances (l.foldl stepOp s) := by
      intro l
      induction l with
      | nil => intro s hs; exact hs
      | cons o t ih => intro s hs; exact ih _ (stepOp_nonneg s o hs)
    exact key ops initState (by intro p hp; cases hp)
  · intro s cid c a newId now hc hb hgt
    have ha : 0 < a := lt_of_le_of_lt hb hgt
    unfold createTransaction
    simp [hc, ha, hgt]
  · intro s req newId h2
    obtain ⟨nm, ib, bf⟩ := req
    by_cases h1 : nm = ""
    · simp [createCustomer, h1]
    · simp only at h2
      simp [createCustomer, h1, h2]

/-- C3 witness: a run of one creation and one debit ends with balance 30 ≥ 0;
a debit of 100 against balance 30 is refused; creating an account with
initial balance −50 is refused. -/
theorem nonneg_invariant_and_admission_witness :
    NonNegBalances (runOps [.create ⟨"A", 50, 0⟩ 1, .apply ⟨1, "debit", 20⟩ 2 0]) ∧
    createTransaction ⟨[(1, ⟨"A", 30⟩)], []⟩ ⟨1, "debit", 100⟩ 5 9 =
      .error .insufficientBalance ∧
    createCustomer initState ⟨"B", -50, 0⟩ 3 = .error .invalidInput :=
  ⟨nonneg_invariant_and_admission.1 _,
   nonneg_invariant_and_admission.2.1 ⟨[(1, ⟨"A", 30⟩)], []⟩ 1 ⟨"A", 30⟩ 100 5 9
     (by decide) (by decide) (by decide),
   nonneg_invariant_and_admission.2.2 initState ⟨"B", -50, 0⟩ 3 (by decide)⟩


/-- C5: every InvalidInput class — empty name, negative initial balance
(directly or through the zero-fallback), unrecognized transaction kind,
non-positive amount, non-positive page or page size — yields the
InvalidInput error, and an error result never mutates the store. -/
theorem invalid_input_no_mutation (s : LedgerState) (creq : CreateCustomerReq)
    (treq : CreateTxnReq) (newId now cid : Nat) (page pageSize : Int)
    (snapshot : List Txn) :
    (creq.name = "" → createCustomer s creq newId = .error .invalidInput) ∧
    (creq.initialBalance < 0 → createCustomer s creq newId = .error .invalidInput) ∧
    (creq.initialBalance = 0 → creq.balance < 0 →
      createCustomer s creq newId = .error .invalidInput) ∧
    (¬(treq.type = "credit" ∨ treq.type = "debit") →
      createTransaction s treq newId now = .error .invalidInput) ∧
    (treq.amount ≤ 0 → createTransaction s treq newId now = .error .invalidInput) ∧
    (page < 1 ∨ pageSize < 1 →
      getTransactions s cid page pageSize snapshot = .error .invalidInput) ∧
    (∀ e, postStateC s (.error e) = s) ∧ (∀ e, postState s (.error e) = s) := by
  obtain ⟨nm, ib, bf⟩ := creq
  obtain ⟨tcid, ty, a⟩ := treq
  refine ⟨?_, ?_, ?_, ?_, ?_, ?_, fun e => rfl, fun e => rfl⟩
  · intro h
    simp only at h
    simp [createCustomer, h]
  · intro h
    simp only at h
    by_cases h1 : nm = ""
    · simp [createCustomer, h1]
    · simp [createCustomer, h1, ne_of_lt h, h]
  · intro h0 hneg
    simp only at h0 hneg
    by_cases h1 : nm = ""
    · simp [createCustomer, h1]
    · simp [createCustomer, h1, h0, hneg]
  · intro h
    simp only at h
    simp [createTransaction, h]
  · intro h
    simp only at h
    by_cases h1 : ¬(ty = "credit" ∨ ty = "debit")
    · simp [createTransaction, h1]
    · rcases not_not.mp h1 with hv | hv <;> subst hv <;>
        simp [createTransaction, not_lt.mpr h]
  · intro h
    rcases h with h | h
    · simp [getTransactions, h]
    · by_cases h1 : page < 1
      · simp [getTransactions, h1]
      · simp [getTransactions, h1, h]

/-- C5 witness: empty name, initial balance −50, zero fallback to −5, kind
`transfer`, amount 0, and page 0 are each refused with InvalidInput, and an
error leaves the store unchanged. -/
theorem invalid_input_no_mutation_witness :
    (("" : String) = "" → createCustomer initState ⟨"", 5, 0⟩ 1 = .error .invalidInput) ∧
    ((-50 : ℤ) < 0 → createCustomer initState ⟨"", -50, 0⟩ 1 = .error .invalidInput) ∧
    ((-50 : ℤ) = 0 → (0 : ℤ) < 0 → createCustomer initState ⟨"", -50, 0⟩ 1 = .error .invalidInput) ∧
    (¬(("transfer" : String) = "credit" ∨ ("transfer" : String) = "debit") →
      createTransaction initState ⟨1, "transfer", 5⟩ 2 0 = .error .invalidInput) ∧
    ((5 : ℤ) ≤ 0 → createTransaction initState ⟨1, "transfer", 5⟩ 2 0 = .error .invalidInput) ∧
    ((0 : Int) < 1 ∨ (10 : Int) < 1 →
      getTransactions initState 1 0 10 [] = .error .invalidInput) ∧
    (∀ e, postStateC initState (.error e) = initState) ∧
    (∀ e, postState initState (.error e) = initState) :=
  invalid_input_no_mutation initState ⟨"", -50, 0⟩ ⟨1, "transfer", 5⟩ 2 0 1 0 10 []

/-- C6: GetBalance in the reference currency returns the stored balance of an
existing customer and fails with NotFound for an unknown identifier. -/
theorem getBalance_found_or_notFound (s : LedgerState) (cid : Nat)
    (convert : String → ℤ → Except LedgerError ℤ)
    (hconv : ∀ b, convert ("USD") b = .ok b) :
    (∀ c, lookupCustomer s cid = some c →
      getBalance s cid ("USD") convert = .ok c.balance) ∧
    (lookupCustomer s cid = none →
      getBalance s cid ("USD") convert = .error .notFound) := by
  constructor
  · intro c hc
    unfold getBalance
    simp [hc, isValidCurrency, hconv]
  · intro hn
    unfold getBalance
    simp [hn, isValidCurrency]

/-- C6 witness: with an identity reference-unit converter, customer 1 with
balance 800 is read back as 800, and customer 2 does not exist. -/
theorem getBalance_found_or_notFound_witness :
    ((∀ c, lookupCustomer ⟨[(1, ⟨"A", 800⟩)], []⟩ 1 = some c →
      getBalance ⟨[(1, ⟨"A", 800⟩)], []⟩ 1 ("USD") (fun _ b => .ok b) = .ok c.balance) ∧
    (lookupCustomer ⟨[(1, ⟨"A", 800⟩)], []⟩ 1 = none →
      getBalance ⟨[(1, ⟨"A", 800⟩)], []⟩ 1 ("USD") (fun _ b => .ok b) =
        .error .notFound)) ∧
    ((∀ c, lookupCustomer ⟨[(1, ⟨"A", 800⟩)], []⟩ 2 = some c →
      getBalance ⟨[(1, ⟨"A", 800⟩)], []⟩ 2 ("USD") (fun _ b => .ok b) = .ok c.balance) ∧
    (lookupCustomer ⟨[(1, ⟨"A", 800⟩)], []⟩ 2 = none →
      getBalance ⟨[(1, ⟨"A", 800⟩)], []⟩ 2 ("USD") (fun _ b => .ok b) =
        .error .notFound)) :=
  ⟨getBalance_found_or_notFound ⟨[(1, ⟨"A", 800⟩)], []⟩ 1 (fun _ b => .ok b)
      (fun _ => rfl),
   getBalance_found_or_notFound ⟨[(1, ⟨"A", 800⟩)], []⟩ 2 (fun _ b => .ok b)
      (fun _ => rfl)⟩

/-- C10: with `initial_balance = 0` the created balance is taken from the
request's `balance` field; with a non-zero non-negative `initial_balance` the
created balance is `initial_balance`, whatever the `balance` field holds. -/
theorem createCustomer_initialBalance_fallback (s : LedgerState) (nm : String)
    (B I F : ℤ) (newId : Nat) (hname : nm ≠ "")
    (hfresh : ¬(s.customers.find? (fun p => p.1 == newId)).isSome) :
    (0 ≤ B → createCustomer s ⟨nm, 0, B⟩ newId =
      .ok (⟨s.customers ++ [(newId, ⟨nm, B⟩)], s.journal⟩, ⟨nm, B⟩)) ∧
    (I ≠ 0 → 0 ≤ I → createCustomer s ⟨nm, I, F⟩ newId =
      .ok (⟨s.customers ++ [(newId, ⟨nm, I⟩)], s.journal⟩, ⟨nm, I⟩)) := by
  constructor
  · intro hB
    simp [createCustomer, hname, not_lt.mpr hB, hfresh]
  · intro hI hI0
    simp [createCustomer, hname, hI, not_lt.mpr hI0, hfresh]

/-- C10 witness: `initial_balance = 0, balance = 75` creates balance 75;
`initial_balance = 40, balance = −9` creates balance 40. -/
theorem createCustomer_initialBalance_fallback_witness :
    ((0 : ℤ) ≤ 75 → createCustomer initState ⟨"John Doe", 0, 75⟩ 1 =
      .ok (⟨[(1, ⟨"John Doe", 75⟩)], []⟩, ⟨"John Doe", 75⟩)) ∧
    ((40 : ℤ) ≠ 0 → (0 : ℤ) ≤ 40 → createCustomer initState ⟨"John Doe", 40, -9⟩ 1 =
      .ok (⟨[(1, ⟨"John Doe", 40⟩)], []⟩, ⟨"John Doe", 40⟩)) :=
  createCustomer_initialBalance_fallback initState ("John Doe") 75 40 (-9) 1
    (by decide) (by decide)



theorem join_window (p : Nat) :
    ∀ (n : Nat) (l : List Txn), l.length ≤ n * p →
      ((List.range n).map (fun k => (l.drop (k * p)).take p)).flatten = l := by
  intro n
  induction n with
  | zero =>
    intro l hl
    simp only [Nat.zero_mul, Nat.le_zero, List.length_eq_zero] at hl
    simp [hl]
  | succ n ih =>
    intro l hl
    have hlen : (l.drop p).length ≤ n * p := by
      rw [List.length_drop]
      rw [Nat.succ_mul] at hl
      omega
    rw [List.range_succ_eq_map, List.map_cons, List.flatten_cons, List.map_map]
    have hmap : ((List.range n).map ((fun k => (l.drop (k * p)).take p) ∘ Nat.succ)) =
        (List.range n).map (fun k => ((l.drop p).drop (k * p)).take p) := by
      apply List.map_congr_left
      intro k _
      simp only [Function.comp_apply, List.drop_drop]
      congr 2
      rw [Nat.succ_mul]
      omega
    rw [hmap, ih _ hlen]
    simp [List.take_append_drop]


theorem getTransactions_ok (s : LedgerState) (cid : Nat) (page pageSize : Int)
    (snapshot : List Txn) (h1 : 1 ≤ page) (h2 : 1 ≤ pageSize)
    (hex : (s.customers.find? (fun p => p.1 == cid)).isSome) :
    getTransactions s cid page pageSize snapshot =
      .ok { items := (snapshot.drop ((page - 1) * pageSize).toNat).take pageSize.toNat
          , totalCount := (journalOf s cid).length
          , page := page
          , pageSize := pageSize
          , totalPages :=
              ((journalOf s cid).length + pageSize.toNat - 1) / pageSize.toNat } := by
  have h1' : ¬ page < 1 := not_lt.mpr h1
  have h2' : ¬ pageSize < 1 := not_lt.mpr h2
  have hex' : (s.customers.find? (fun p => p.1 == cid)).isNone = false := by
    rcases Option.isSome_iff_exists.mp hex with ⟨v, hv⟩
    simp [hv]
  unfold getTransactions
  simp [h1', h2', hex']

theorem le_ceil_mul (T p : Nat) (hp : 0 < p) : T ≤ ((T + p - 1) / p) * p := by
  have h := Nat.lt_div_mul_add (a := T + p - 1) hp
  generalize (T + p - 1) / p * p = x at h ⊢
  omega


/-- C7: for a fixed ordered snapshot of a customer's journal and any page
size ≥ 1, concatenating pages 1 through ⌈T/p⌉ reproduces the snapshot
exactly — and the snapshot is a permutation of the customer's full journal,
so every transaction appears exactly once. -/
theorem pagination_concatenation_exact (s : LedgerState) (cid : Nat)
    (snapshot : List Txn) (p : Int) (hp : 1 ≤ p)
    (hex : (s.customers.find? (fun q => q.1 == cid)).isSome)
    (hsnap : QuerySnapshot s cid snapshot) :
    ((List.range ((snapshot.length + p.toNat - 1) / p.toNat)).map
        (fun (k : Nat) => pageItems (getTransactions s cid ((k : Int) + 1) p snapshot))).flatten
      = snapshot ∧
    snapshot.Perm (journalOf s cid) := by
  refine ⟨?_, hsnap.1⟩
  have hp0 : (0 : Int) ≤ p := by linarith
  have hpn : (p.toNat : Int) = p := Int.toNat_of_nonneg hp0
  have hptpos : 0 < p.toNat := by omega
  have hoff : ∀ k : Nat, ((k : Int) * p).toNat = k * p.toNat := by
    intro k
    conv_lhs => rw [← hpn]
    rw [← Int.natCast_mul, Int.toNat_natCast]
  have hmap : (List.range ((snapshot.length + p.toNat - 1) / p.toNat)).map
        (fun (k : Nat) => pageItems (getTransactions s cid ((k : Int) + 1) p snapshot))
      = (List.range ((snapshot.length + p.toNat - 1) / p.toNat)).map
        (fun k => (snapshot.drop (k * p.toNat)).take p.toNat) := by
    apply List.map_congr_left
    intro k _
    rw [getTransactions_ok s cid ((k : Int) + 1) p snapshot
        (by omega) hp hex]
    unfold pageItems
    simp [hoff k]
  rw [hmap]
  exact join_window p.toNat ((snapshot.length + p.toNat - 1) / p.toNat) snapshot
    (le_ceil_mul snapshot.length p.toNat hptpos)


theorem wrap64_eq_self (n : ℤ) (h0 : -2 ^ 63 ≤ n) (h1 : n < 2 ^ 63) :
    wrap64 n = n := by
  unfold wrap64
  rw [Int.emod_eq_of_lt (by omega) (by omega)]
  omega

theorem natCeilDiv_eq_ceil (T : ℕ) (pageSize : ℤ) (h2 : 1 ≤ pageSize) :
    (((T + pageSize.toNat - 1) / pageSize.toNat : ℕ) : ℤ)
      = ⌈(T : ℚ) / (pageSize : ℚ)⌉ := by
  have hppos : 0 < pageSize.toNat := by omega
  have hpn : (pageSize.toNat : Int) = pageSize := Int.toNat_of_nonneg (by omega)
  have hq1 := le_ceil_mul T pageSize.toNat hppos
  have hq2 := Nat.div_mul_le_self (T + pageSize.toNat - 1) pageSize.toNat
  have hpq : ((pageSize.toNat : ℕ) : ℚ) = (pageSize : ℚ) := by exact_mod_cast hpn
  have hps : (0 : ℚ) < (pageSize : ℚ) := by
    rw [← hpq]; exact_mod_cast hppos
  have hp1 : (1 : ℚ) ≤ ((pageSize.toNat : ℕ) : ℚ) := by exact_mod_cast hppos
  symm
  rw [Int.ceil_eq_iff]
  constructor
  · rw [Int.cast_natCast, lt_div_iff₀ hps]
    have hc2 : (((T + pageSize.toNat - 1) / pageSize.toNat : ℕ) : ℚ)
          * ((pageSize.toNat : ℕ) : ℚ)
        ≤ (T : ℚ) + ((pageSize.toNat : ℕ) : ℚ) - 1 := by
      have hle : 1 ≤ T + pageSize.toNat := by omega
      have hcast : ((T + pageSize.toNat - 1 : ℕ) : ℚ)
          = (T : ℚ) + ((pageSize.toNat : ℕ) : ℚ) - 1 := by
        rw [Nat.cast_sub hle]
        push_cast
        ring
      calc (((T + pageSize.toNat - 1) / pageSize.toNat : ℕ) : ℚ)
            * ((pageSize.toNat : ℕ) : ℚ)
          = (((T + pageSize.toNat - 1) / pageSize.toNat
              * pageSize.toNat : ℕ) : ℚ) := by push_cast; ring
        _ ≤ ((T + pageSize.toNat - 1 : ℕ) : ℚ) := by exact_mod_cast hq2
        _ = _ := hcast
    rw [← hpq]
    linarith
  · rw [Int.cast_natCast, div_le_iff₀ hps]
    have hc1 : (T : ℚ)
        ≤ (((T + pageSize.toNat - 1) / pageSize.toNat : ℕ) : ℚ)
          * ((pageSize.toNat : ℕ) : ℚ) := by exact_mod_cast hq1
    rw [← hpq]
    linarith

/-- C8 counterexample: the source computes the OFFSET in wrapping 64-bit
`int` arithmetic, so at `page = 2^62`, `pageSize = 4` the offset wraps to
`-4` and the call fails with an internal error instead of succeeding with
an empty page, while at `page = 2^62 + 1` it wraps to `0` and the first
rows come back non-empty even though the claimed offset `2^64` is far past
the data. -/
theorem pagination_offset_wrap_counterexample :
    getTransactionsGo sampleState 1 (2 ^ 62) 4 [txnC, txnB, txnA] =
      .error .internalError ∧
    getTransactionsGo sampleState 1 (2 ^ 62 + 1) 4 [txnC, txnB, txnA] =
      .ok ⟨[txnC, txnB, txnA], 3, 2 ^ 62 + 1, 4, 1⟩ ∧
    ([txnC, txnB, txnA] : List Txn) ≠ [] := by
  exact ⟨by decide, by decide, by decide⟩

/-- C8 amended: while the products the source computes stay inside the
64-bit `int` range — `(page−1)·pageSize < 2^63` and
`totalCount + pageSize − 1 < 2^63` — a valid ListTransactions call on an
existing customer succeeds with the window at offset `(page−1)·pageSize`,
reports `totalPages = ⌈totalCount / pageSize⌉`, and a page whose offset
reaches past `totalCount` yields an empty sequence, not an error; beyond
that range the wrapped offset is either negative (surfaced as an internal
error) or addresses the window of the wrapped value, as the counterexample
shows. -/
theorem pagination_window_within_machine_range (s : LedgerState) (cid : Nat)
    (page pageSize : Int) (snapshot : List Txn)
    (h1 : 1 ≤ page) (h2 : 1 ≤ pageSize)
    (hoff : (page - 1) * pageSize < 2 ^ 63)
    (htp : ((journalOf s cid).length : ℤ) + pageSize - 1 < 2 ^ 63)
    (hex : (s.customers.find? (fun q => q.1 == cid)).isSome) :
    ∃ r, getTransactionsGo s cid page pageSize snapshot = .ok r ∧
      r.items = (snapshot.drop ((page - 1) * pageSize).toNat).take pageSize.toNat ∧
      r.totalPages = ⌈(r.totalCount : ℚ) / (pageSize : ℚ)⌉ ∧
      (QuerySnapshot s cid snapshot → (r.totalCount : ℤ) ≤ (page - 1) * pageSize →
        r.items = []) := by
  have hoffnn : 0 ≤ (page - 1) * pageSize := mul_nonneg (by omega) (by omega)
  have hw1 : wrap64 ((page - 1) * pageSize) = (page - 1) * pageSize :=
    wrap64_eq_self _ (by linarith) hoff
  have hTnn : (0 : ℤ) ≤ ((journalOf s cid).length : ℤ) := Int.natCast_nonneg _
  have hw2 : wrap64 (((journalOf s cid).length : ℤ) + pageSize - 1)
      = ((journalOf s cid).length : ℤ) + pageSize - 1 :=
    wrap64_eq_self _ (by linarith) htp
  have h1i : ¬ page < 1 := not_lt.mpr h1
  have h2i : ¬ pageSize < 1 := not_lt.mpr h2
  have hexi : (s.customers.find? (fun q => q.1 == cid)).isNone = false := by
    rcases Option.isSome_iff_exists.mp hex with ⟨v, hv⟩
    simp [hv]
  have hok : getTransactionsGo s cid page pageSize snapshot =
      .ok { items := (snapshot.drop ((page - 1) * pageSize).toNat).take pageSize.toNat
          , totalCount := (journalOf s cid).length
          , page := page
          , pageSize := pageSize
          , totalPages :=
              Int.tdiv (((journalOf s cid).length : ℤ) + pageSize - 1) pageSize } := by
    unfold getTransactionsGo
    simp [h1i, h2i, hexi, hw1, hw2, not_lt.mpr hoffnn]
  refine ⟨_, hok, rfl, ?_, ?_⟩
  · show Int.tdiv (((journalOf s cid).length : ℤ) + pageSize - 1) pageSize
      = ⌈(((journalOf s cid).length : ℚ)) / (pageSize : ℚ)⌉
    have hpge : (0 : ℤ) ≤ pageSize := by omega
    obtain ⟨p, rfl⟩ : ∃ p : ℕ, (p : ℤ) = pageSize := ⟨pageSize.toNat, Int.toNat_of_nonneg hpge⟩
    have hp1 : 1 ≤ p := by exact_mod_cast h2
    have hone : 1 ≤ (journalOf s cid).length + p := by omega
    have hsum : ((journalOf s cid).length : ℤ) + (p : ℤ) - 1
        = (((journalOf s cid).length + p - 1 : ℕ) : ℤ) := by
      rw [Nat.cast_sub hone]
      push_cast
      ring
    rw [hsum]
    have htd : Int.tdiv (((journalOf s cid).length + p - 1 : ℕ) : ℤ) ((p : ℕ) : ℤ)
        = ((((journalOf s cid).length + p - 1) / p : ℕ) : ℤ) := rfl
    rw [htd]
    have hR := natCeilDiv_eq_ceil (journalOf s cid).length ((p : ℕ) : ℤ)
      (by exact_mod_cast hp1)
    simpa [Int.toNat_natCast] using hR
  · intro hsnap hle
    show ((snapshot.drop ((page - 1) * pageSize).toNat).take pageSize.toNat) = []
    have hlen : snapshot.length = (journalOf s cid).length := hsnap.1.length_eq
    have hdrop : snapshot.length ≤ ((page - 1) * pageSize).toNat := by
      generalize ho : (page - 1) * pageSize = o at hle
      simp only at hle
      omega
    rw [List.drop_eq_nil_of_le hdrop]
    simp

/-- C9 counterexample: two transactions share a creation timestamp; the
reversed order `[tieTxnB, tieTxnA]` satisfies everything `ORDER BY
created_at DESC` requires, is exactly what ListTransactions then returns,
yet does not present the equal-timestamp rows in insertion order. -/
theorem txn_tie_order_counterexample :
    QuerySnapshot tieState 1 [tieTxnB, tieTxnA] ∧
    pageItems (getTransactions tieState 1 1 10 [tieTxnB, tieTxnA]) =
      [tieTxnB, tieTxnA] ∧
    ¬ TiesRespectInsertion (journalOf tieState 1) [tieTxnB, tieTxnA] := by
  decide

/-- C9 amended: any page returned by ListTransactions is ordered
non-strictly descending by creation timestamp and is a contiguous
sub-sequence of the database's ordered snapshot; the relative order of
equal-timestamp rows is whatever the snapshot happened to use. -/
theorem txn_order_desc_by_timestamp (s : LedgerState) (cid : Nat)
    (page pageSize : Int) (snapshot : List Txn) (r : PageResult)
    (hsnap : QuerySnapshot s cid snapshot)
    (hok : getTransactions s cid page pageSize snapshot = .ok r) :
    r.items.Pairwise (fun a b => b.createdAt ≤ a.createdAt) ∧
    r.items.Sublist snapshot := by
  unfold getTransactions at hok
  split at hok
  · exact Except.noConfusion hok
  · split at hok
    · exact Except.noConfusion hok
    · split at hok
      · exact Except.noConfusion hok
      · injection hok with h
        subst h
        constructor
        · exact hsnap.2.sublist ((List.take_sublist _ _).trans (List.drop_sublist _ _))
        · exact (List.take_sublist _ _).trans (List.drop_sublist _ _)

/-- C9 amended witness: the page served from the tie snapshot is
non-strictly descending, and is a sub-sequence of that snapshot. -/
theorem txn_order_desc_by_timestamp_witness :
    ([tieTxnB, tieTxnA] : List Txn).Pairwise (fun a b => b.createdAt ≤ a.createdAt) ∧
    ([tieTxnB, tieTxnA] : List Txn).Sublist [tieTxnB, tieTxnA] := by
  have h := txn_order_desc_by_timestamp tieState 1 1 10 [tieTxnB, tieTxnA]
    ⟨[tieTxnB, tieTxnA], 2, 1, 10, 1⟩ (by decide) (by decide)
  exact h


/-- C7 witness: three transactions, page size 2 — pages 1 and 2 concatenate
to the ordered snapshot, a permutation of the journal. -/
theorem pagination_concatenation_exact_witness :
    ((List.range ((([txnC, txnB, txnA] : List Txn).length + (2 : Int).toNat - 1)
        / (2 : Int).toNat)).map
      (fun (k : Nat) => pageItems (getTransactions sampleState 1 ((k : Int) + 1) 2
        [txnC, txnB, txnA]))).flatten = [txnC, txnB, txnA] ∧
    ([txnC, txnB, txnA] : List Txn).Perm (journalOf sampleState 1) :=
  pagination_concatenation_exact sampleState 1 [txnC, txnB, txnA] 2
    (by decide) (by decide) (by decide)

/-- C8 amended witness: page 5 of size 2 over three rows — the products 8
and 4 are far below 2^63 — succeeds, its offset 8 is past the three stored
rows, the page is empty, and totalPages is ⌈3/2⌉ = 2. -/
theorem pagination_window_within_machine_range_witness :
    ∃ r, getTransactionsGo sampleState 1 5 2 [txnC, txnB, txnA] = .ok r ∧
      r.items = (([txnC, txnB, txnA] : List Txn).drop
        (((5 : Int) - 1) * 2).toNat).take (2 : Int).toNat ∧
      r.totalPages = ⌈(r.totalCount : ℚ) / ((2 : Int) : ℚ)⌉ ∧
      (QuerySnapshot sampleState 1 [txnC, txnB, txnA] →
        (r.totalCount : ℤ) ≤ ((5 : Int) - 1) * 2 → r.items = []) :=
  pagination_window_within_machine_range sampleState 1 5 2 [txnC, txnB, txnA]
    (by decide) (by decide) (by decide) (by decide) (by decide)

end Ledger
